import Mathlib

/-!
Verification of the Obot Core trading-framework skeleton
(`src/core/autobot.py`) against its natural-language specification.

The Python module is shallowly embedded:

* numeric values (`float` in the source) are modelled as `ℚ`, with Python's
  `round(x, 2)` modelled as decimal rounding to the nearest multiple of
  `1/100`, ties to even (Python's rounding mode);
* fallible computations return `Option`/`Except`: a `ZeroDivisionError`
  raised by `float` division becomes `none`, and the collaborator calls
  (`fetch_candles`, `generate_signal`) are oracles returning
  `Except String _` so that a `.error` models a raised exception;
* the observable behaviour of one `run_cycle` (log lines, collaborator
  calls, sleeps) is modelled as a trace of `Event`s, in the order
  the Python statements execute.
-/

/-- Configured instrument list, from `PAIRS` in the source. -/
def PAIRS : List String :=
  ["EURUSD", "GBPUSD", "USDJPY", "USDCHF", "AUDUSD", "USDCAD", "NZDUSD"]

/-- Session start `datetime.time(8, 0)`, as seconds since UTC midnight. -/
def TRADING_SESSION_START : Nat := 8 * 3600

/-- Session end `datetime.time(12, 0)`, as seconds since UTC midnight. -/
def TRADING_SESSION_END : Nat := 12 * 3600

/-- Constant `RISK_PERCENT_PER_TRADE = 0.01` from the source. -/
def RISK_PERCENT_PER_TRADE : ℚ := 1 / 100

/-- Constant `MAX_CONCURRENT_TRADES_PER_PAIR = 1` from the source. -/
def MAX_CONCURRENT_TRADES_PER_PAIR : Nat := 1

/-- Rounding of a rational to the nearest integer with ties to even,
Python's rounding mode for `round`. -/
def roundHalfEven (q : ℚ) : ℤ :=
  if q - ⌊q⌋ < 1 / 2 then ⌊q⌋
  else if (1 : ℚ) / 2 < q - ⌊q⌋ then ⌊q⌋ + 1
  else if ⌊q⌋ % 2 = 0 then ⌊q⌋ else ⌊q⌋ + 1

/-- Python's `round(q, 2)`: round to two decimal places, ties to even. -/
def round2 (q : ℚ) : ℚ := (roundHalfEven (q * 100) : ℚ) / 100

/-- The value `risk_amount / (sl_pips * 10)` computed inside
`RiskManager.calculate_lot_size`, before rounding, with
`risk_amount = account_balance * risk_percent`. -/
def raw_lot_size (account_balance risk_percent sl_pips : ℚ) : ℚ :=
  (account_balance * risk_percent) / (sl_pips * 10)

/-- Embedding of `RiskManager.calculate_lot_size`.  The source performs no
input validation: it computes `risk_amount = account_balance * risk_percent`,
then `lot_size = risk_amount / (sl_pips * 10)`, and returns
`round(lot_size, 2)`.  When the divisor `sl_pips * 10` is zero the Python
`float` division raises `ZeroDivisionError`, modelled as `none`. -/
def calculate_lot_size (account_balance risk_percent sl_pips : ℚ) : Option ℚ :=
  if sl_pips * 10 = 0 then none
  else some (round2 (raw_lot_size account_balance risk_percent sl_pips))

/-- Bar data returned by `DataProvider.fetch_candles` (a `pandas.DataFrame`
of OHLC rows in the source); its contents are opaque to the core. -/
abbrev Bars : Type := List (ℚ × ℚ × ℚ × ℚ)

/-- The dictionary returned by `Strategy.generate_signal`.  The core only
ever reads the key `"signal"`; `signal?` is that key's value, `none` when
the key is absent. -/
structure SignalDict where
  signal? : Option ℤ

/-- Observable steps of one `run_cycle`, in Python statement order:
log lines, collaborator calls and sleeps.  `orderCall` stands for
`Trader.place_order`; the source never executes it (the call is commented
out), it is in the vocabulary so that its absence can be stated. -/
inductive Event where
  | infoSessionSkip : Event
  | fetchCall : String → Event
  | signalCall : String → Event
  | signalDetected : String → String → Event
  | orderCall : String → Event
  | errorEvent : String → Event
  | sleepEvent : Nat → Event
deriving DecidableEq

/-- The instrument an event concerns, if any. -/
def Event.pairOf : Event → Option String
  | .infoSessionSkip => none
  | .fetchCall p => some p
  | .signalCall p => some p
  | .signalDetected p _ => some p
  | .orderCall p => some p
  | .errorEvent p => some p
  | .sleepEvent _ => none

/-- Whether an event is a `fetch_candles` call. -/
def Event.isFetchCall : Event → Bool
  | .fetchCall _ => true
  | _ => false

/-- Whether an event is a `generate_signal` call. -/
def Event.isSignalCall : Event → Bool
  | .signalCall _ => true
  | _ => false

/-- Whether an event is a `place_order` call toward the execution port. -/
def Event.isOrderCall : Event → Bool
  | .orderCall _ => true
  | _ => false

/-- Whether an event is an actionable-signal log line for instrument `p`. -/
def Event.isSignalDetectedFor (p : String) : Event → Bool
  | .signalDetected q _ => q == p
  | _ => false

/-- Events of a trace that concern instrument `p`. -/
def eventsFor (p : String) (tr : List Event) : List Event :=
  tr.filter (fun e => e.pairOf == some p)

/-- Embedding of `ObotCore.is_trading_session`, with the current UTC
time-of-day `now` in seconds since midnight:
`TRADING_SESSION_START <= now <= TRADING_SESSION_END`. -/
def is_trading_session (now : Nat) : Bool :=
  decide (TRADING_SESSION_START ≤ now ∧ now ≤ TRADING_SESSION_END)

/-- Events of the `try:` block body for one instrument: the data fetch,
then the signal call, then the signal check
`if signal.get("signal", 0) != 0` with its `BUY`/`SELL` log line; a raised
exception (an `Except.error` from either collaborator) is caught by the
`except` clause, which logs one error with the instrument context. -/
def try_body (fetch : String → Except String Bars)
    (gen : String → Bars → Except String SignalDict) (pair : String) :
    List Event :=
  Event.fetchCall pair ::
    match fetch pair with
    | .error _ => [Event.errorEvent pair]
    | .ok data =>
      Event.signalCall pair ::
        match gen pair data with
        | .error _ => [Event.errorEvent pair]
        | .ok sig =>
          match sig.signal? with
          | none => []
          | some v =>
            if v ≠ 0 then
              [Event.signalDetected pair (if 0 < v then "BUY" else "SELL")]
            else []

/-- One iteration of the `for pair in PAIRS` loop of `run_cycle`: the
admission check `active_positions[pair] >= MAX_CONCURRENT_TRADES_PER_PAIR`
(`continue` when it holds, producing no events, before any I/O), then the
`try` block. -/
def process_pair (pos : String → Nat) (fetch : String → Except String Bars)
    (gen : String → Bars → Except String SignalDict) (pair : String) :
    List Event :=
  if MAX_CONCURRENT_TRADES_PER_PAIR ≤ pos pair then []
  else try_body fetch gen pair

/-- The in-session part of `run_cycle`: the instrument loop over `PAIRS`
in configuration order. -/
def poll_phase (pos : String → Nat) (fetch : String → Except String Bars)
    (gen : String → Bars → Except String SignalDict) : List Event :=
  PAIRS.flatMap (process_pair pos fetch gen)

/-- Embedding of `ObotCore.run_cycle` as the trace of one cycle.  Outside
the session window it logs, sleeps 300 s and returns; otherwise it runs the
instrument loop and sleeps 60 s. -/
def run_cycle (now : Nat) (pos : String → Nat)
    (fetch : String → Except String Bars)
    (gen : String → Bars → Except String SignalDict) : List Event :=
  if is_trading_session now then
    poll_phase pos fetch gen ++ [Event.sleepEvent 60]
  else
    [Event.infoSessionSkip, Event.sleepEvent 300]

/-- The `active_positions` dictionary built in `ObotCore.__init__`:
`{pair: 0 for pair in PAIRS}`. -/
def init_positions : List (String × Nat) := PAIRS.map (fun p => (p, 0))

/-- Lookup in the positions dictionary. -/
def lookupPos (s : List (String × Nat)) (p : String) : Nat :=
  (s.lookup p).getD 0

/-- Embedding of `run_cycle` together with its effect on the orchestrator
state: the body of `run_cycle` contains no assignment to
`active_positions`, so the dictionary is returned unchanged. -/
def run_cycle_st (now : Nat) (s : List (String × Nat))
    (fetch : String → Except String Bars)
    (gen : String → Bars → Except String SignalDict) :
    List Event × List (String × Nat) :=
  (run_cycle now (lookupPos s) fetch gen, s)

/-- The cycle environment: for each cycle index, the current time-of-day
and the behaviour of the two collaborators during that cycle. -/
def CycleEnv : Type :=
  Nat → Nat × (String → Except String Bars) ×
    (String → Bars → Except String SignalDict)

/-- The orchestrator state after `n` cycles of `ObotCore.run`, starting
from the constructed state, with collaborator behaviour given by `env`. -/
def run_cycles (env : CycleEnv) : Nat → List (String × Nat)
  | 0 => init_positions
  | n + 1 =>
    (run_cycle_st (env n).1 (run_cycles env n) (env n).2.1 (env n).2.2).2

/-- Sample position table: every instrument below the cap. -/
def posZero : String → Nat := fun _ => 0

/-- Sample position table: every instrument at the cap. -/
def posOne : String → Nat := fun _ => 1

/-- Sample data provider that always succeeds with an empty frame. -/
def fetchOk : String → Except String Bars := fun _ => Except.ok []

/-- Sample data provider whose fetch raises `DataUnavailable` for
`GBPUSD` and succeeds for every other instrument. -/
def fetchFailGBP : String → Except String Bars := fun p =>
  if p == "GBPUSD" then Except.error "DataUnavailable" else Except.ok []

/-- Sample strategy returning the no-trade dictionary, as the
`Strategy.generate_signal` stub in the source does. -/
def genZero : String → Bars → Except String SignalDict :=
  fun _ _ => Except.ok ⟨some 0⟩

/-- Sample strategy returning a dictionary without the `"signal"` key. -/
def genMissing : String → Bars → Except String SignalDict :=
  fun _ _ => Except.ok ⟨none⟩

/-- Sample strategy returning a buy decision for every instrument. -/
def genBuy : String → Bars → Except String SignalDict :=
  fun _ _ => Except.ok ⟨some 1⟩

/-- Sample cycle environment: always in session, stub collaborators. -/
def envZero : CycleEnv := fun _ => (30000, fetchOk, genZero)

/-- Every event produced by the `try` block for an instrument carries that
instrument as its context. -/
lemma try_body_pairOf (fetch : String → Except String Bars)
    (gen : String → Bars → Except String SignalDict) (q : String) :
    ∀ e ∈ try_body fetch gen q, e.pairOf = some q := by
  intro e he
  unfold try_body at he
  cases hf : fetch q with
  | error msg =>
    rw [hf] at he
    simp only [List.mem_cons, List.mem_singleton, List.not_mem_nil] at he
    rcases he with rfl | rfl | h
    · rfl
    · rfl
    · cases h
  | ok data =>
    rw [hf] at he
    dsimp only at he
    cases hg : gen q data with
    | error msg =>
      rw [hg] at he
      simp only [List.mem_cons, List.mem_singleton, List.not_mem_nil] at he
      rcases he with rfl | rfl | rfl | h
      · rfl
      · rfl
      · rfl
      · cases h
    | ok sig =>
      rw [hg] at he
      dsimp only at he
      cases hs : sig.signal? with
      | none =>
        rw [hs] at he
        dsimp only at he
        simp only [List.mem_cons, List.not_mem_nil, or_false] at he
        rcases he with rfl | rfl
        · rfl
        · rfl
      | some v =>
        rw [hs] at he
        dsimp only at he
        by_cases hv : v ≠ 0
        · rw [if_pos hv] at he
          simp only [List.mem_cons, List.mem_singleton, List.not_mem_nil]
            at he
          rcases he with rfl | rfl | rfl | h
          · rfl
          · rfl
          · rfl
          · cases h
        · rw [if_neg hv] at he
          simp only [List.mem_cons, List.not_mem_nil, or_false] at he
          rcases he with rfl | rfl
          · rfl
          · rfl

/-- Every event produced for an instrument by the loop body carries that
instrument as its context. -/
lemma process_pair_pairOf (pos : String → Nat)
    (fetch : String → Except String Bars)
    (gen : String → Bars → Except String SignalDict) (q : String) :
    ∀ e ∈ process_pair pos fetch gen q, e.pairOf = some q := by
  intro e he
  unfold process_pair at he
  split at he
  · cases he
  · exact try_body_pairOf fetch gen q e he

/-- Filtering a trace whose events all concern `q` by `q` keeps it. -/
lemma eventsFor_eq_self {q : String} (l : List Event)
    (hl : ∀ e ∈ l, e.pairOf = some q) : eventsFor q l = l := by
  apply List.filter_eq_self.mpr
  intro e he
  rw [hl e he]
  simp

/-- Filtering a trace whose events all concern `q` by a different
instrument removes everything. -/
lemma eventsFor_eq_nil_of_ne {q p : String} (h : q ≠ p) (l : List Event)
    (hl : ∀ e ∈ l, e.pairOf = some q) : eventsFor p l = [] := by
  apply List.filter_eq_nil_iff.mpr
  intro e he
  rw [hl e he]
  simp [h]

/-- In a loop over distinct instruments where each iteration only emits
events about its own instrument, the events about `q` are exactly those of
`q`'s iteration. -/
lemma eventsFor_flatMap {L : List String} (hnd : L.Nodup)
    (f : String → List Event) (hf : ∀ x, ∀ e ∈ f x, e.pairOf = some x)
    {q : String} (hq : q ∈ L) :
    eventsFor q (L.flatMap f) = f q := by
  induction L with
  | nil => cases hq
  | cons x L ih =>
    rw [List.flatMap_cons]
    unfold eventsFor
    rw [List.filter_append]
    rcases List.mem_cons.mp hq with rfl | hq'
    · have h2 : List.filter (fun e => e.pairOf == some q) (L.flatMap f)
          = [] := by
        apply List.filter_eq_nil_iff.mpr
        intro e he
        rcases List.mem_flatMap.mp he with ⟨y, hy, hey⟩
        rw [hf y e hey]
        have hyq : y ≠ q := by
          rintro rfl
          exact (List.nodup_cons.mp hnd).1 hy
        simp [hyq]
      rw [h2, List.append_nil]
      exact eventsFor_eq_self (f q) (hf q)
    · have hxq : x ≠ q := by
        rintro rfl
        exact (List.nodup_cons.mp hnd).1 hq'
      have h1 : List.filter (fun e => e.pairOf == some q) (f x) = [] :=
        eventsFor_eq_nil_of_ne hxq (f x) (hf x)
      rw [h1, List.nil_append]
      exact ih (List.nodup_cons.mp hnd).2 hq'

/-- If `q`'s own iteration emits nothing, the whole loop emits no event
about `q`. -/
lemma eventsFor_flatMap_nil (L : List String)
    (f : String → List Event) (hf : ∀ x, ∀ e ∈ f x, e.pairOf = some x)
    {q : String} (hq : f q = []) :
    eventsFor q (L.flatMap f) = [] := by
  apply List.filter_eq_nil_iff.mpr
  intro e he
  rcases List.mem_flatMap.mp he with ⟨y, hy, hey⟩
  by_cases hyq : y = q
  · subst hyq
    rw [hq] at hey
    cases hey
  · rw [hf y e hey]
    simp [hyq]

/-- The instrument list of the source is duplicate-free. -/
lemma PAIRS_nodup : PAIRS.Nodup := by decide

/-- Inversion for the events of one `try` block: each is the fetch call,
the signal call, the caught-error log line, or a `BUY`/`SELL` log line —
the latter only when both collaborators succeeded and the returned
dictionary holds a non-zero `"signal"` value. -/
lemma try_body_cases (fetch : String → Except String Bars)
    (gen : String → Bars → Except String SignalDict) (q : String) :
    ∀ e ∈ try_body fetch gen q,
      e = Event.fetchCall q ∨ e = Event.signalCall q ∨
      e = Event.errorEvent q ∨
      ∃ bars sig v, fetch q = Except.ok bars ∧ gen q bars = Except.ok sig ∧
        sig.signal? = some v ∧ v ≠ 0 ∧
        e = Event.signalDetected q (if 0 < v then "BUY" else "SELL") := by
  intro e he
  unfold try_body at he
  cases hf : fetch q with
  | error msg =>
    rw [hf] at he
    simp only [List.mem_cons, List.mem_singleton, List.not_mem_nil] at he
    rcases he with rfl | rfl | h
    · exact Or.inl rfl
    · exact Or.inr (Or.inr (Or.inl rfl))
    · cases h
  | ok data =>
    rw [hf] at he
    dsimp only at he
    cases hg : gen q data with
    | error msg =>
      rw [hg] at he
      dsimp only at he
      simp only [List.mem_cons, List.mem_singleton, List.not_mem_nil] at he
      rcases he with rfl | rfl | rfl | h
      · exact Or.inl rfl
      · exact Or.inr (Or.inl rfl)
      · exact Or.inr (Or.inr (Or.inl rfl))
      · cases h
    | ok sig =>
      rw [hg] at he
      dsimp only at he
      cases hs : sig.signal? with
      | none =>
        rw [hs] at he
        dsimp only at he
        simp only [List.mem_cons, List.not_mem_nil, or_false] at he
        rcases he with rfl | rfl
        · exact Or.inl rfl
        · exact Or.inr (Or.inl rfl)
      | some v =>
        rw [hs] at he
        dsimp only at he
        by_cases hv : v ≠ 0
        · rw [if_pos hv] at he
          simp only [List.mem_cons, List.mem_singleton, List.not_mem_nil]
            at he
          rcases he with rfl | rfl | rfl | h
          · exact Or.inl rfl
          · exact Or.inr (Or.inl rfl)
          · exact Or.inr (Or.inr (Or.inr ⟨data, sig, v, rfl, hg, hs, hv, rfl⟩))
          · cases h
        · rw [if_neg hv] at he
          simp only [List.mem_cons, List.not_mem_nil, or_false] at he
          rcases he with rfl | rfl
          · exact Or.inl rfl
          · exact Or.inr (Or.inl rfl)

/-- Inversion for a whole cycle trace: an event is the session-skip log
line, a sleep, or an event of the `try` block of some configured
instrument. -/
lemma mem_run_cycle (now : Nat) (pos : String → Nat)
    (fetch : String → Except String Bars)
    (gen : String → Bars → Except String SignalDict) (e : Event)
    (he : e ∈ run_cycle now pos fetch gen) :
    e = Event.infoSessionSkip ∨ (∃ n, e = Event.sleepEvent n) ∨
    ∃ x, x ∈ PAIRS ∧ e ∈ try_body fetch gen x := by
  unfold run_cycle at he
  split at he
  · rcases List.mem_append.mp he with hpoll | hsl
    · rcases List.mem_flatMap.mp hpoll with ⟨x, hx, hex⟩
      unfold process_pair at hex
      split at hex
      · cases hex
      · exact Or.inr (Or.inr ⟨x, hx, hex⟩)
    · simp only [List.mem_singleton] at hsl
      exact Or.inr (Or.inl ⟨60, hsl⟩)
  · simp only [List.mem_cons, List.not_mem_nil, or_false] at he
    rcases he with rfl | rfl
    · exact Or.inl rfl
    · exact Or.inr (Or.inl ⟨300, rfl⟩)

/-- A cycle that starts inside the session window runs the instrument loop
and then sleeps the 60 s poll interval. -/
lemma run_cycle_in_session {now : Nat} (pos : String → Nat)
    (fetch : String → Except String Bars)
    (gen : String → Bars → Except String SignalDict)
    (hsess : is_trading_session now = true) :
    run_cycle now pos fetch gen
      = poll_phase pos fetch gen ++ [Event.sleepEvent 60] := by
  unfold run_cycle
  rw [hsess]
  rfl

/-- Counting an event that concerns `p` can be done inside `eventsFor p`. -/
lemma count_eventsFor {e : Event} {p : String} (hp : e.pairOf = some p)
    (l : List Event) : List.count e (eventsFor p l) = List.count e l := by
  apply List.count_filter
  rw [hp]
  simp

/-- An instrument under its concurrency cap reaches the `try` block. -/
lemma process_pair_admitted {pos : String → Nat} (fetch : String → Except String Bars)
    (gen : String → Bars → Except String SignalDict) {p : String}
    (hcap : pos p < MAX_CONCURRENT_TRADES_PER_PAIR) :
    process_pair pos fetch gen p = try_body fetch gen p := by
  unfold process_pair
  rw [if_neg (Nat.not_le.mpr hcap)]

/-- An instrument at or over its concurrency cap is skipped outright. -/
lemma process_pair_capped {pos : String → Nat} (fetch : String → Except String Bars)
    (gen : String → Bars → Except String SignalDict) {p : String}
    (hcap : MAX_CONCURRENT_TRADES_PER_PAIR ≤ pos p) :
    process_pair pos fetch gen p = [] := by
  unfold process_pair
  rw [if_pos hcap]

/-- Trace of the `try` block when the data fetch raises. -/
lemma try_body_fetch_error {fetch : String → Except String Bars}
    (gen : String → Bars → Except String SignalDict) {p msg}
    (hf : fetch p = Except.error msg) :
    try_body fetch gen p = [Event.fetchCall p, Event.errorEvent p] := by
  unfold try_body
  rw [hf]

/-- Trace of the `try` block when the signal generation raises. -/
lemma try_body_gen_error {fetch : String → Except String Bars}
    {gen : String → Bars → Except String SignalDict} {p bars msg}
    (hf : fetch p = Except.ok bars) (hg : gen p bars = Except.error msg) :
    try_body fetch gen p
      = [Event.fetchCall p, Event.signalCall p, Event.errorEvent p] := by
  unfold try_body
  rw [hf]
  dsimp only
  rw [hg]

/-- Trace of the `try` block when the returned dictionary has no
`"signal"` key: `signal.get("signal", 0)` yields the default `0`, so the
condition is false and nothing further happens. -/
lemma try_body_missing_key {fetch : String → Except String Bars}
    {gen : String → Bars → Except String SignalDict} {p bars sig}
    (hf : fetch p = Except.ok bars) (hg : gen p bars = Except.ok sig)
    (hs : sig.signal? = none) :
    try_body fetch gen p = [Event.fetchCall p, Event.signalCall p] := by
  unfold try_body
  rw [hf]
  dsimp only
  rw [hg]
  dsimp only
  rw [hs]

example : calculate_lot_size 1000 (1/100) 5 = some (1/5) := by
  norm_num [calculate_lot_size, raw_lot_size, round2, roundHalfEven]

example : calculate_lot_size (7/5) (1/10) 1 = some (1/100) := by
  norm_num [calculate_lot_size, raw_lot_size, round2, roundHalfEven]

example : calculate_lot_size (14/5) (1/10) 1 = some (3/100) := by
  norm_num [calculate_lot_size, raw_lot_size, round2, roundHalfEven]

example : calculate_lot_size (-100) (1/100) 5 = some (-1/50) := by
  norm_num [calculate_lot_size, raw_lot_size, round2, roundHalfEven]

example : calculate_lot_size 100 (1/100) 0 = none := by
  norm_num [calculate_lot_size]

example : run_cycle 28740 posZero fetchOk genZero
    = [Event.infoSessionSkip, Event.sleepEvent 300] := by decide

example : run_cycle 30000 posOne fetchOk genZero
    = [Event.sleepEvent 60] := by decide

example : run_cycle 30000 posZero fetchOk genBuy
    = ((PAIRS.flatMap fun p =>
        [Event.fetchCall p, Event.signalCall p,
         Event.signalDetected p "BUY"]) ++ [Event.sleepEvent 60]) := by
  decide

example : (run_cycle 30000 posZero fetchFailGBP genZero).count
    (Event.errorEvent "GBPUSD") = 1 := by decide

/-- Inside the session window, the events of a cycle that concern one
configured instrument are exactly those of that instrument's loop
iteration. -/
lemma eventsFor_run_cycle_in_session {now : Nat} {pos : String → Nat}
    {fetch : String → Except String Bars}
    {gen : String → Bars → Except String SignalDict} {q : String}
    (hsess : is_trading_session now = true) (hq : q ∈ PAIRS) :
    eventsFor q (run_cycle now pos fetch gen)
      = process_pair pos fetch gen q := by
  rw [run_cycle_in_session pos fetch gen hsess]
  unfold eventsFor poll_phase
  rw [List.filter_append]
  have h1 := eventsFor_flatMap PAIRS_nodup (process_pair pos fetch gen)
    (process_pair_pairOf pos fetch gen) hq
  unfold eventsFor at h1
  rw [h1]
  have h2 : List.filter (fun e => e.pairOf == some q)
      [Event.sleepEvent 60] = [] := rfl
  rw [h2, List.append_nil]

/-- C1: inside the session window, when the data fetch or the signal
generation for an admitted instrument `p` raises, the cycle emits exactly
one error event for `p`, still processes every other configured instrument
exactly as its own collaborator results dictate, and completes normally
with the 60 s poll sleep (it is never aborted). -/
theorem per_instrument_failure_isolated (now : Nat) (pos : String → Nat)
    (fetch : String → Except String Bars)
    (gen : String → Bars → Except String SignalDict) (p : String)
    (hsess : is_trading_session now = true)
    (hp : p ∈ PAIRS)
    (hcap : pos p < MAX_CONCURRENT_TRADES_PER_PAIR)
    (herr : (∃ msg, fetch p = Except.error msg) ∨
      ∃ bars msg, fetch p = Except.ok bars ∧ gen p bars = Except.error msg) :
    (run_cycle now pos fetch gen).count (Event.errorEvent p) = 1 ∧
    (∀ q, q ∈ PAIRS → q ≠ p →
      eventsFor q (run_cycle now pos fetch gen)
        = process_pair pos fetch gen q) ∧
    run_cycle now pos fetch gen
      = poll_phase pos fetch gen ++ [Event.sleepEvent 60] := by
  have hcnt : (run_cycle now pos fetch gen).count (Event.errorEvent p)
      = 1 := by
    rw [← @count_eventsFor (Event.errorEvent p) p rfl
      (run_cycle now pos fetch gen)]
    rw [eventsFor_run_cycle_in_session hsess hp,
      process_pair_admitted fetch gen hcap]
    rcases herr with ⟨msg, hf⟩ | ⟨bars, msg, hf, hg⟩
    · rw [try_body_fetch_error gen hf]
      simp [List.count_cons]
    · rw [try_body_gen_error hf hg]
      simp [List.count_cons]
  exact ⟨hcnt,
    fun q hq _ => eventsFor_run_cycle_in_session hsess hq,
    run_cycle_in_session pos fetch gen hsess⟩

/-- Witness for C1: with three healthy instruments around a `GBPUSD` fetch
that raises `DataUnavailable`, the cycle emits exactly one error event for
`GBPUSD`, processes `EURUSD` normally, and ends with the poll sleep. -/
theorem per_instrument_failure_isolated_witness :
    (run_cycle 30000 posZero fetchFailGBP genZero).count
        (Event.errorEvent "GBPUSD") = 1 ∧
    eventsFor "EURUSD" (run_cycle 30000 posZero fetchFailGBP genZero)
        = process_pair posZero fetchFailGBP genZero "EURUSD" ∧
    run_cycle 30000 posZero fetchFailGBP genZero
        = poll_phase posZero fetchFailGBP genZero
            ++ [Event.sleepEvent 60] := by
  have h := per_instrument_failure_isolated 30000 posZero fetchFailGBP
    genZero "GBPUSD" (by decide) (by decide) (by decide)
    (Or.inl ⟨"DataUnavailable", rfl⟩)
  exact ⟨h.1, h.2.1 "EURUSD" (by decide) (by decide), h.2.2⟩

/-- C2: the session comparison is inclusive on both bounds — strictly
before 08:00 or strictly after 12:00 UTC the cycle only logs the skip and
sleeps the 300 s idle interval (zero fetches, zero signal calls), while at
exactly 08:00 or exactly 12:00 it proceeds to instrument polling. -/
theorem session_window_inclusive_bounds (now : Nat) (pos : String → Nat)
    (fetch : String → Except String Bars)
    (gen : String → Bars → Except String SignalDict) :
    ((now < TRADING_SESSION_START ∨ TRADING_SESSION_END < now) →
      run_cycle now pos fetch gen
          = [Event.infoSessionSkip, Event.sleepEvent 300] ∧
      (run_cycle now pos fetch gen).countP Event.isFetchCall = 0 ∧
      (run_cycle now pos fetch gen).countP Event.isSignalCall = 0) ∧
    ((now = TRADING_SESSION_START ∨ now = TRADING_SESSION_END) →
      run_cycle now pos fetch gen
          = poll_phase pos fetch gen ++ [Event.sleepEvent 60]) := by
  constructor
  · intro h
    have hs : is_trading_session now = false := by
      unfold is_trading_session
      unfold TRADING_SESSION_START TRADING_SESSION_END at h ⊢
      simp only [decide_eq_false_iff_not, not_and, not_le]
      omega
    have htr : run_cycle now pos fetch gen
        = [Event.infoSessionSkip, Event.sleepEvent 300] := by
      unfold run_cycle
      rw [hs]
      rfl
    rw [htr]
    exact ⟨rfl, by decide, by decide⟩
  · intro h
    rcases h with rfl | rfl
    · exact run_cycle_in_session pos fetch gen (by decide)
    · exact run_cycle_in_session pos fetch gen (by decide)

/-- Witness for C2: at 07:59 the cycle idles for 300 s; at 08:00 and at
12:00 sharp it polls; at 12:00:01 it idles again. -/
theorem session_window_inclusive_bounds_witness :
    run_cycle 28740 posZero fetchOk genZero
        = [Event.infoSessionSkip, Event.sleepEvent 300] ∧
    run_cycle 28800 posZero fetchOk genZero
        = poll_phase posZero fetchOk genZero ++ [Event.sleepEvent 60] ∧
    run_cycle 43200 posZero fetchOk genZero
        = poll_phase posZero fetchOk genZero ++ [Event.sleepEvent 60] ∧
    run_cycle 43201 posZero fetchOk genZero
        = [Event.infoSessionSkip, Event.sleepEvent 300] :=
  ⟨((session_window_inclusive_bounds 28740 posZero fetchOk genZero).1
      (Or.inl (by decide))).1,
   (session_window_inclusive_bounds 28800 posZero fetchOk genZero).2
      (Or.inl (by decide)),
   (session_window_inclusive_bounds 43200 posZero fetchOk genZero).2
      (Or.inr (by decide)),
   ((session_window_inclusive_bounds 43201 posZero fetchOk genZero).1
      (Or.inr (by decide))).1⟩

/-- C3: an instrument whose open-position count has reached the
per-instrument cap is skipped before any I/O — the cycle emits no event at
all about it, in particular zero `fetch_candles` and zero
`generate_signal` calls for it. -/
theorem capped_instrument_skipped (now : Nat) (pos : String → Nat)
    (fetch : String → Except String Bars)
    (gen : String → Bars → Except String SignalDict) (p : String)
    (hcap : MAX_CONCURRENT_TRADES_PER_PAIR ≤ pos p) :
    eventsFor p (run_cycle now pos fetch gen) = [] ∧
    (run_cycle now pos fetch gen).count (Event.fetchCall p) = 0 ∧
    (run_cycle now pos fetch gen).count (Event.signalCall p) = 0 := by
  have hnil : eventsFor p (run_cycle now pos fetch gen) = [] := by
    unfold run_cycle
    split
    · unfold eventsFor poll_phase
      rw [List.filter_append]
      have h1 := eventsFor_flatMap_nil PAIRS (process_pair pos fetch gen)
        (process_pair_pairOf pos fetch gen)
        (process_pair_capped fetch gen hcap)
      unfold eventsFor at h1
      rw [h1]
      rfl
    · rfl
  refine ⟨hnil, ?_, ?_⟩
  · rw [← @count_eventsFor (Event.fetchCall p) p rfl
      (run_cycle now pos fetch gen), hnil]
    rfl
  · rw [← @count_eventsFor (Event.signalCall p) p rfl
      (run_cycle now pos fetch gen), hnil]
    rfl

/-- Witness for C3: with every count at the cap 1, `EURUSD` sees no fetch
and no signal call during an in-session cycle. -/
theorem capped_instrument_skipped_witness :
    eventsFor "EURUSD" (run_cycle 30000 posOne fetchOk genZero) = [] ∧
    (run_cycle 30000 posOne fetchOk genZero).count
        (Event.fetchCall "EURUSD") = 0 ∧
    (run_cycle 30000 posOne fetchOk genZero).count
        (Event.signalCall "EURUSD") = 0 :=
  capped_instrument_skipped 30000 posOne fetchOk genZero "EURUSD"
    (by decide)

/-- C8: when the signal generator only ever returns no-trade decisions for
instrument `p` (`"signal"` value `0`), the cycle logs no actionable-signal
event for `p`; and no cycle ever calls toward the execution port —
`place_order` is commented out in the source. -/
theorem none_signal_no_action (now : Nat) (pos : String → Nat)
    (fetch : String → Except String Bars)
    (gen : String → Bars → Except String SignalDict) (p : String)
    (hgen : ∀ bars sig, gen p bars = Except.ok sig → sig.signal? = some 0) :
    (run_cycle now pos fetch gen).countP (Event.isSignalDetectedFor p) = 0 ∧
    (run_cycle now pos fetch gen).countP Event.isOrderCall = 0 := by
  constructor
  · apply List.countP_eq_zero.mpr
    intro e he
    rcases mem_run_cycle now pos fetch gen e he with
      rfl | ⟨n, rfl⟩ | ⟨x, hx, hex⟩
    · simp [Event.isSignalDetectedFor]
    · simp [Event.isSignalDetectedFor]
    · rcases try_body_cases fetch gen x e hex with
        rfl | rfl | rfl | ⟨bars, sig, v, hf, hg, hs, hv, rfl⟩
      · simp [Event.isSignalDetectedFor]
      · simp [Event.isSignalDetectedFor]
      · simp [Event.isSignalDetectedFor]
      · by_cases hxp : x = p
        · subst hxp
          intro _
          have h0 := hgen bars sig hg
          rw [hs] at h0
          exact hv (Option.some.inj h0)
        · simp only [Event.isSignalDetectedFor, beq_iff_eq]
          exact hxp
  · apply List.countP_eq_zero.mpr
    intro e he
    rcases mem_run_cycle now pos fetch gen e he with
      rfl | ⟨n, rfl⟩ | ⟨x, hx, hex⟩
    · simp [Event.isOrderCall]
    · simp [Event.isOrderCall]
    · rcases try_body_cases fetch gen x e hex with
        rfl | rfl | rfl | ⟨_, _, _, _, _, _, _, rfl⟩ <;>
      simp [Event.isOrderCall]

/-- Witness for C8: with the stub strategy (always `signal = 0`), an
in-session cycle logs no actionable signal for `EURUSD` and performs no
order call. -/
theorem none_signal_no_action_witness :
    (run_cycle 30000 posZero fetchOk genZero).countP
        (Event.isSignalDetectedFor "EURUSD") = 0 ∧
    (run_cycle 30000 posZero fetchOk genZero).countP
        Event.isOrderCall = 0 :=
  none_signal_no_action 30000 posZero fetchOk genZero "EURUSD"
    (by intro bars sig h; injection h with h2; rw [← h2])

/-- C10: a returned dictionary without the `"signal"` key is treated as a
no-signal decision — `signal.get("signal", 0)` yields the default `0`, so
the instrument's events are just its two collaborator calls, no error is
raised, and the cycle completes normally. -/
theorem missing_signal_key_no_event (now : Nat) (pos : String → Nat)
    (fetch : String → Except String Bars)
    (gen : String → Bars → Except String SignalDict) (p : String)
    (bars : Bars) (sig : SignalDict)
    (hsess : is_trading_session now = true)
    (hp : p ∈ PAIRS)
    (hcap : pos p < MAX_CONCURRENT_TRADES_PER_PAIR)
    (hf : fetch p = Except.ok bars)
    (hg : gen p bars = Except.ok sig)
    (hs : sig.signal? = none) :
    eventsFor p (run_cycle now pos fetch gen)
        = [Event.fetchCall p, Event.signalCall p] ∧
    (run_cycle now pos fetch gen).count (Event.errorEvent p) = 0 ∧
    run_cycle now pos fetch gen
        = poll_phase pos fetch gen ++ [Event.sleepEvent 60] := by
  have hpp : process_pair pos fetch gen p
      = [Event.fetchCall p, Event.signalCall p] := by
    rw [process_pair_admitted fetch gen hcap, try_body_missing_key hf hg hs]
  have hfor := @eventsFor_run_cycle_in_session now pos fetch gen p hsess hp
  refine ⟨hfor.trans hpp, ?_, run_cycle_in_session pos fetch gen hsess⟩
  rw [← @count_eventsFor (Event.errorEvent p) p rfl
    (run_cycle now pos fetch gen), hfor, hpp]
  simp [List.count_cons]

/-- Witness for C10: a strategy returning a dictionary without the
`"signal"` key leaves `EURUSD` with just its two calls and no error. -/
theorem missing_signal_key_no_event_witness :
    eventsFor "EURUSD" (run_cycle 30000 posZero fetchOk genMissing)
        = [Event.fetchCall "EURUSD", Event.signalCall "EURUSD"] ∧
    (run_cycle 30000 posZero fetchOk genMissing).count
        (Event.errorEvent "EURUSD") = 0 ∧
    run_cycle 30000 posZero fetchOk genMissing
        = poll_phase posZero fetchOk genMissing ++ [Event.sleepEvent 60] :=
  missing_signal_key_no_event 30000 posZero fetchOk genMissing "EURUSD"
    [] ⟨none⟩ (by decide) (by decide) (by decide) rfl rfl rfl

/-- C9: the position table maps every configured instrument to `0` at
construction, `run_cycle` returns it unchanged, so after any number of
cycles it still is the all-zero table and every count is at most the
per-instrument cap when an admission check reads it. -/
theorem position_table_constant_zero :
    (∀ p, p ∈ PAIRS → lookupPos init_positions p = 0) ∧
    (∀ now s fetch gen, (run_cycle_st now s fetch gen).2 = s) ∧
    (∀ env n, run_cycles env n = init_positions) ∧
    (∀ env n p, p ∈ PAIRS →
      lookupPos (run_cycles env n) p ≤ MAX_CONCURRENT_TRADES_PER_PAIR) := by
  have h0 : ∀ p, p ∈ PAIRS → lookupPos init_positions p = 0 := by
    intro p hp
    fin_cases hp <;> rfl
  have h1 : ∀ (now : Nat) (s : List (String × Nat))
      (fetch : String → Except String Bars)
      (gen : String → Bars → Except String SignalDict),
      (run_cycle_st now s fetch gen).2 = s := fun _ _ _ _ => rfl
  have h2 : ∀ env n, run_cycles env n = init_positions := by
    intro env n
    induction n with
    | zero => rfl
    | succ n ih =>
      show (run_cycle_st _ (run_cycles env n) _ _).2 = init_positions
      rw [h1, ih]
  refine ⟨h0, h1, h2, ?_⟩
  intro env n p hp
  rw [h2 env n, h0 p hp]
  exact Nat.zero_le _

/-- Witness for C9: concrete reads of the table at construction and after
three cycles of the stub environment. -/
theorem position_table_constant_zero_witness :
    lookupPos init_positions "EURUSD" = 0 ∧
    (run_cycle_st 30000 init_positions fetchOk genZero).2
        = init_positions ∧
    run_cycles envZero 3 = init_positions ∧
    lookupPos (run_cycles envZero 3) "EURUSD"
        ≤ MAX_CONCURRENT_TRADES_PER_PAIR :=
  ⟨position_table_constant_zero.1 "EURUSD" (by decide),
   position_table_constant_zero.2.1 30000 init_positions fetchOk genZero,
   position_table_constant_zero.2.2.1 envZero 3,
   position_table_constant_zero.2.2.2 envZero 3 "EURUSD" (by decide)⟩

/-- Half-even rounding of a non-negative rational is non-negative. -/
lemma roundHalfEven_nonneg {q : ℚ} (hq : 0 ≤ q) : 0 ≤ roundHalfEven q := by
  have hf : (0 : ℤ) ≤ ⌊q⌋ := Int.floor_nonneg.mpr hq
  unfold roundHalfEven
  split_ifs <;> omega

/-- Two-decimal rounding of a non-negative rational is non-negative. -/
lemma round2_nonneg {q : ℚ} (hq : 0 ≤ q) : 0 ≤ round2 q := by
  unfold round2
  apply div_nonneg _ (by norm_num)
  exact_mod_cast roundHalfEven_nonneg (by positivity)

/-- A positive stop distance gives a non-zero divisor. -/
lemma sl_divisor_ne_zero {d : ℚ} (hd : 0 < d) : d * 10 ≠ 0 :=
  mul_ne_zero (ne_of_gt hd) (by norm_num)

/-- C5: on every valid input the sizer returns exactly
`(accountBalance * riskFraction) / (stopDistance * 10)` rounded to two
decimal places; the embedding is a pure function, so there are no side
effects. -/
theorem lot_size_formula (b r d : ℚ)
    (hb : 0 < b) (hr : 0 < r) (hr1 : r ≤ 1) (hd : 0 < d) :
    calculate_lot_size b r d = some (round2 ((b * r) / (d * 10))) := by
  unfold calculate_lot_size raw_lot_size
  rw [if_neg]
  intro h
  exact sl_divisor_ne_zero hd h

/-- Witness for C5: `1000` balance, `1 %` risk, `5`-pip stop gives
`0.20` lots. -/
theorem lot_size_formula_witness :
    calculate_lot_size 1000 (1/100) 5
        = some (round2 ((1000 * (1/100)) / (5 * 10))) ∧
    round2 ((1000 * (1/100)) / (5 * 10)) = 1/5 :=
  ⟨lot_size_formula 1000 (1/100) 5 (by norm_num) (by norm_num)
      (by norm_num) (by norm_num),
   by norm_num [round2, roundHalfEven]⟩

/-- C7: on every valid input the sizer succeeds with a non-negative value,
and repeated calls with the same arguments give the same result — the
embedding is a pure function of its arguments, with no hidden state. -/
theorem lot_size_deterministic_nonneg (b r d : ℚ)
    (hb : 0 < b) (hr : 0 < r) (hr1 : r ≤ 1) (hd : 0 < d) :
    ∃ v, calculate_lot_size b r d = some v ∧ 0 ≤ v ∧
      calculate_lot_size b r d = calculate_lot_size b r d := by
  refine ⟨round2 (raw_lot_size b r d), ?_, ?_, rfl⟩
  · unfold calculate_lot_size
    rw [if_neg]
    intro h
    exact sl_divisor_ne_zero hd h
  · apply round2_nonneg
    unfold raw_lot_size
    apply div_nonneg (mul_nonneg hb.le hr.le)
    positivity

/-- Witness for C7: the valid input `(1000, 0.01, 5)` yields the
non-negative `0.20`. -/
theorem lot_size_deterministic_nonneg_witness :
    (∃ v, calculate_lot_size 1000 (1/100) 5 = some v ∧ 0 ≤ v ∧
      calculate_lot_size 1000 (1/100) 5
        = calculate_lot_size 1000 (1/100) 5) ∧
    calculate_lot_size 1000 (1/100) 5 = some (1/5) :=
  ⟨lot_size_deterministic_nonneg 1000 (1/100) 5 (by norm_num)
      (by norm_num) (by norm_num) (by norm_num),
   by norm_num [calculate_lot_size, raw_lot_size, round2, roundHalfEven]⟩

/-- Counterexample to C6 as stated: at the valid input
`b = 1.4, r = 0.1, d = 1` the returned (two-decimal-rounded) size for the
doubled balance is `0.03`, which differs from twice the size `0.01` of the
original balance — rounding breaks exact linearity. -/
theorem lot_size_not_linear_counterexample :
    (0 < (7/5 : ℚ) ∧ 0 < (1/10 : ℚ) ∧ (1/10 : ℚ) ≤ 1 ∧ 0 < (1 : ℚ)) ∧
    calculate_lot_size (2 * (7/5)) (1/10) 1 = some (3/100) ∧
    calculate_lot_size (7/5) (1/10) 1 = some (1/100) ∧
    (3/100 : ℚ) ≠ 2 * (1/100) := by
  refine ⟨by norm_num, ?_, ?_, by norm_num⟩ <;>
    norm_num [calculate_lot_size, raw_lot_size, round2, roundHalfEven]

/-- C6 (amended): the sizer scales linearly with balance before the final
two-decimal rounding — `raw_lot_size (2b) r d = 2 * raw_lot_size b r d` —
and the returned value is exactly that raw size rounded; after rounding
the doubling identity can fail. -/
theorem raw_lot_size_linear_in_balance (b r d : ℚ)
    (hb : 0 < b) (hr : 0 < r) (hr1 : r ≤ 1) (hd : 0 < d) :
    raw_lot_size (2 * b) r d = 2 * raw_lot_size b r d ∧
    calculate_lot_size b r d = some (round2 (raw_lot_size b r d)) := by
  constructor
  · unfold raw_lot_size
    ring
  · unfold calculate_lot_size
    rw [if_neg]
    intro h
    exact sl_divisor_ne_zero hd h

/-- Witness for C6 (amended): at `(100, 0.01, 5)` the raw size doubles
with the balance and equals `0.02` before and after rounding. -/
theorem raw_lot_size_linear_in_balance_witness :
    (raw_lot_size (2 * 100) (1/100) 5 = 2 * raw_lot_size 100 (1/100) 5 ∧
      calculate_lot_size 100 (1/100) 5
        = some (round2 (raw_lot_size 100 (1/100) 5))) ∧
    raw_lot_size 100 (1/100) 5 = 1/50 :=
  ⟨raw_lot_size_linear_in_balance 100 (1/100) 5 (by norm_num)
      (by norm_num) (by norm_num) (by norm_num),
   by norm_num [raw_lot_size]⟩

/-- Counterexample to C4 as stated: a negative account balance is not
rejected — the sizer happily returns the number `-0.02`; and a zero stop
distance does fail, but with a division-by-zero error, not with an
`InvalidInput` rejection. -/
theorem invalid_input_not_rejected_counterexample :
    calculate_lot_size (-100) (1/100) 5 = some (-(1/50)) ∧
    calculate_lot_size 100 (1/100) 0 = none := by
  constructor <;>
    norm_num [calculate_lot_size, raw_lot_size, round2, roundHalfEven]

/-- C4 (amended): `calculate_lot_size` performs no input validation — a
zero stop distance makes the division raise `ZeroDivisionError` (modelled
`none`), and every other input, including negative balances and risk
fractions outside `(0, 1]`, returns the rounded formula value instead of
being rejected. -/
theorem lot_size_no_validation (b r d : ℚ) :
    calculate_lot_size b r 0 = none ∧
    (d ≠ 0 → calculate_lot_size b r d
      = some (round2 (raw_lot_size b r d))) := by
  constructor
  · unfold calculate_lot_size
    rw [if_pos]
    norm_num
  · intro hd
    unfold calculate_lot_size
    rw [if_neg (mul_ne_zero hd (by norm_num))]

/-- Witness for C4 (amended): with balance `-100` and the out-of-range
risk fraction `2`, a zero stop distance raises and a stop of `5` returns
the formula value `-4`. -/
theorem lot_size_no_validation_witness :
    calculate_lot_size (-100) 2 0 = none ∧
    calculate_lot_size (-100) 2 5
        = some (round2 (raw_lot_size (-100) 2 5)) ∧
    round2 (raw_lot_size (-100) 2 5) = -4 :=
  ⟨(lot_size_no_validation (-100) 2 0).1,
   (lot_size_no_validation (-100) 2 5).2 (by norm_num),
   by norm_num [raw_lot_size, round2, roundHalfEven]⟩


